import Mathlib

/-!
# Verification of the TeleVault offline upload queue

Shallow embedding of `src/src/services/offlineQueueService.ts`
(class `OfflineQueueService`) and proofs about the claims of the
specification.

Modelling conventions:
* `QueuedUpload` mirrors the TypeScript interface of the same name.
* The persisted AsyncStorage slot for `QUEUE_KEY` is modelled by
  `StoreState`; the possibility that `AsyncStorage.getItem` or
  `JSON.parse` throws is the `loadError` state, and a throwing
  `AsyncStorage.setItem` is the `saveFails` boolean of `saveQueueE`.
* Effectful methods are translated to pure functions that return the
  new queue together with an explicit log of their observable effects
  (transfer-client calls made, snapshots broadcast to listeners).
* Timestamps (`new Date().toISOString()`) and generated ids are passed
  in as parameters, since they come from the environment.
-/

namespace TeleVault

/-- The `status` field of the TypeScript `QueuedUpload` interface. -/
inductive UploadStatus
  | pending
  | uploading
  | completed
  | failed
deriving DecidableEq, Repr

/-- The `file` sub-record of `QueuedUpload`: uri, name, mime type, size. -/
structure FileDesc where
  uri : String
  name : String
  mime : String
  size : Nat
deriving DecidableEq, Repr

/-- The `metadata` sub-record of `QueuedUpload`. -/
structure UploadMeta where
  tags : String
  category : String
  uploader : String
  chatId : String
deriving DecidableEq, Repr

/-- One queued item, mirroring `interface QueuedUpload` field for field. -/
structure QueuedUpload where
  id : String
  file : FileDesc
  metadata : UploadMeta
  status : UploadStatus
  attempts : Nat
  lastAttempt : Option String := none
  error : Option String := none
  createdAt : String
deriving DecidableEq, Repr

/-- `private readonly MAX_RETRIES = 3`. -/
def MAX_RETRIES : Nat := 3

/-!
## Item Store: `getQueue` / `saveQueue`

The persisted AsyncStorage slot under `QUEUE_KEY` as the drain observes
it through `AsyncStorage.getItem` + `JSON.parse`.
-/

/-- The observable state of the persisted `upload_queue` slot:
either no value was ever stored (`getItem` returns null), or the
load/parse step throws (`getItem` rejects or `JSON.parse` throws),
or a queue value is stored and parses back. -/
inductive StoreState
  | absent
  | loadError
  | value (q : List QueuedUpload)
deriving DecidableEq, Repr

/-- The body of `getQueue` before its `catch`: `AsyncStorage.getItem`
followed by `queueJson ? JSON.parse(queueJson) : []`, as an `Except`
so that the throwing path is explicit. -/
def getItemParse (s : StoreState) : Except String (List QueuedUpload) :=
  match s with
  | .absent => .ok []
  | .loadError => .error "storage or parse failure"
  | .value q => .ok q

/-- `getQueue()` as the caller sees it: the `try`/`catch` wraps
`getItemParse`, and the `catch` branch logs and returns `[]`.  The
result type is `Except` to record that no error can escape. -/
def getQueueE (s : StoreState) : Except String (List QueuedUpload) :=
  match getItemParse s with
  | .ok q => .ok q
  | .error _ => .ok []

/-- The queue value `getQueue()` actually hands back. -/
def getQueue (s : StoreState) : List QueuedUpload :=
  match getQueueE s with
  | .ok q => q
  | .error _ => []

/-- `saveQueue(queue)`: `AsyncStorage.setItem` may throw (modelled by
`saveFails`); the `try`/`catch` logs and swallows the error, so the
caller always receives a normal return.  On a throwing save the
previously committed slot is untouched. -/
def saveQueueE (saveFails : Bool) (s : StoreState) (q : List QueuedUpload) :
    StoreState × Except String Unit :=
  if saveFails then (s, .ok ()) else (.value q, .ok ())

/-- C10: `getQueue()` never throws: for every store state the wrapped
result is `ok`, and on an absent value or a failed load/parse it is the
empty queue. -/
theorem getQueue_total_and_empty_on_failure :
    (∀ s : StoreState, (getQueueE s).isOk = true) ∧
    getQueueE .absent = .ok [] ∧
    getQueueE .loadError = .ok [] := by
  refine ⟨fun s => ?_, rfl, rfl⟩
  cases s <;> rfl

/-- A concrete previously committed item, used to show what a caller
observes around a failing persistence layer. -/
def storedItem : QueuedUpload :=
  { id := "stored_1"
    file := { uri := "file:///a", name := "a.bin", mime := "application/octet-stream", size := 4 }
    metadata := { tags := "t", category := "docs", uploader := "op", chatId := "c1" }
    status := .pending
    attempts := 0
    createdAt := "2024-01-01T00:00:00Z" }

/-- An item a caller tries to save while the persistence layer fails. -/
def incomingItem : QueuedUpload :=
  { id := "incoming_2"
    file := { uri := "file:///b", name := "b.bin", mime := "application/octet-stream", size := 9 }
    metadata := { tags := "t2", category := "docs", uploader := "op", chatId := "c1" }
    status := .pending
    attempts := 0
    createdAt := "2024-01-01T00:05:00Z" }

/-- C5 counterexample: with a committed queue `[storedItem]` and a
failing `setItem`, `saveQueue` returns plain success to its caller
(the error is swallowed, not propagated), and a failing load is
reported as the empty queue rather than as an error. -/
theorem persistence_failure_not_surfaced :
    (saveQueueE true (.value [storedItem]) [storedItem, incomingItem]).2 = .ok () ∧
    getQueueE .loadError = .ok [] := by
  exact ⟨rfl, rfl⟩

/-- C5 amended: persistence failures are silently absorbed.  A failing
save returns success to the caller and leaves the previously committed
slot unchanged; a successful save replaces the slot; a failing load is
reported as the empty queue. -/
theorem persistence_failure_absorbed (s : StoreState) (q : List QueuedUpload) :
    saveQueueE true s q = (s, .ok ()) ∧
    saveQueueE false s q = (.value q, .ok ()) ∧
    getQueueE .loadError = .ok [] := by
  exact ⟨rfl, rfl, rfl⟩

/-!
## `processUpload`: one transfer attempt

`processUpload(upload)` reloads the queue, locates the item by id
(`queue.findIndex(u => u.id === upload.id)`, `-1` meaning absent),
mutates the found element in place to `uploading` with `attempts + 1`
and a fresh `lastAttempt`, saves and notifies, runs the transfer inside
a `try`, then mutates the same element to its final status, saves and
notifies again.

The outcome of the whole `try` block (Telegram call plus database
insert) is supplied as `Except String Unit`, keyed by the item id.
The crucial detail kept from the source: the retry-cap test reads
`upload.attempts` — the attempts count of the *stale snapshot argument*,
not the freshly incremented counter in the reloaded queue.
-/

/-- The first in-place mutation of the found element:
`status = uploading; attempts += 1; lastAttempt = now`. -/
def attemptStamp (now : String) (x : QueuedUpload) : QueuedUpload :=
  { x with status := .uploading, attempts := x.attempts + 1, lastAttempt := some now }

/-- The final in-place mutation of the found element after the `try`:
on success `completed` with the error cleared; on failure `failed` when
the stale snapshot already reached `MAX_RETRIES`, else back to
`pending`, recording the error message either way. -/
def settle (stale : QueuedUpload) (res : Except String Unit) (x : QueuedUpload) :
    QueuedUpload :=
  match res with
  | .ok _ => { x with status := .completed, error := none }
  | .error e =>
      if MAX_RETRIES ≤ stale.attempts then { x with status := .failed, error := some e }
      else { x with status := .pending, error := some e }

/-- Locate the first element whose id matches `stale.id`
(`findIndex` on the reloaded queue) and apply both in-place mutations
at that position, returning the queue snapshot after each of the two
saves; `none` models `uploadIndex === -1`. -/
def attemptAt (now : String) (res : Except String Unit) (stale : QueuedUpload) :
    List QueuedUpload → Option (List QueuedUpload × List QueuedUpload)
  | [] => none
  | x :: xs =>
      if x.id = stale.id then
        let x1 := attemptStamp now x
        some (x1 :: xs, settle stale res x1 :: xs)
      else
        (attemptAt now res stale xs).map (fun p => (x :: p.1, x :: p.2))

/-- The observable effects of one `processUpload` call: the queue as
finally persisted, the ids on which the Transfer Client was invoked
(`[]` or a singleton), and the snapshots broadcast to listeners. -/
structure UploadEffects where
  queue : List QueuedUpload
  calls : List String
  notified : List (List QueuedUpload)
deriving DecidableEq, Repr

/-- `processUpload(upload)` over the reloaded queue `q`: if the id is
gone the call returns with no effect at all; otherwise the two
mutation/save/notify rounds happen around exactly one Transfer Client
invocation. -/
def processUploadQ (outcome : String → Except String Unit) (now : String)
    (q : List QueuedUpload) (u : QueuedUpload) : UploadEffects :=
  match attemptAt now (outcome u.id) u q with
  | none => { queue := q, calls := [], notified := [] }
  | some (q1, q2) => { queue := q2, calls := [u.id], notified := [q1, q2] }

/-!
## The drain: `processQueue`
-/

/-- The selection filter of `processQueue`: status `pending`, or
`failed` with `attempts < MAX_RETRIES`, keeping the original order. -/
def selectEligible (q : List QueuedUpload) : List QueuedUpload :=
  q.filter (fun u =>
    decide (u.status = .pending ∨ (u.status = .failed ∧ u.attempts < MAX_RETRIES)))

/-- The observable effects of one drain pass. -/
structure DrainEffects where
  queue : List QueuedUpload
  calls : List String
  notified : List (List QueuedUpload)
deriving DecidableEq, Repr

/-- The `for (const upload of pendingUploads)` loop: each selected item
is processed sequentially against the current persisted queue; the
`try`/`catch` around `processUpload` means no failure stops the loop
(our `processUploadQ` is total, all its internal failures are already
recorded in the item states). -/
def drainGo (outcome : String → Except String Unit) (now : String) :
    List QueuedUpload → List QueuedUpload → DrainEffects
  | [], q => { queue := q, calls := [], notified := [] }
  | u :: rest, q =>
      let eff := processUploadQ outcome now q u
      let tail := drainGo outcome now rest eff.queue
      { queue := tail.queue
        calls := eff.calls ++ tail.calls
        notified := eff.notified ++ tail.notified }

/-- The body of `processQueue` after the guard and connectivity checks:
load the queue, filter the eligible items, process them in order. -/
def processQueueDrain (outcome : String → Except String Unit) (now : String)
    (q : List QueuedUpload) : DrainEffects :=
  drainGo outcome now (selectEligible q) q

/-- The full `processQueue()` entry: return immediately when a drain is
already flagged as running or when the device is offline. -/
def processQueue (isProcessing connected : Bool) (outcome : String → Except String Unit)
    (now : String) (q : List QueuedUpload) : DrainEffects :=
  if isProcessing then { queue := q, calls := [], notified := [] }
  else if connected then processQueueDrain outcome now q
  else { queue := q, calls := [], notified := [] }

/-!
## Structural lemmas about `attemptAt`
-/

theorem attemptStamp_id (now : String) (x : QueuedUpload) :
    (attemptStamp now x).id = x.id := rfl

theorem settle_id (stale : QueuedUpload) (res : Except String Unit) (x : QueuedUpload) :
    (settle stale res x).id = x.id := by
  cases res with
  | ok _ => rfl
  | error e =>
      simp only [settle]
      split <;> rfl

theorem attemptAt_eq_none (now : String) (res : Except String Unit)
    (stale : QueuedUpload) :
    ∀ q : List QueuedUpload, (∀ v ∈ q, v.id ≠ stale.id) →
      attemptAt now res stale q = none := by
  intro q
  induction q with
  | nil => intro _; rfl
  | cons x xs ih =>
      intro h
      have hx : x.id ≠ stale.id := h x (List.mem_cons_self x xs)
      have hxs : ∀ v ∈ xs, v.id ≠ stale.id := fun v hv => h v (List.mem_cons_of_mem x hv)
      simp only [attemptAt, if_neg hx, ih hxs, Option.map_none']

theorem attemptAt_isSome (now : String) (res : Except String Unit)
    (stale : QueuedUpload) :
    ∀ q : List QueuedUpload, stale.id ∈ q.map (fun v => v.id) →
      ∃ p, attemptAt now res stale q = some p := by
  intro q
  induction q with
  | nil => intro h; simp at h
  | cons x xs ih =>
      intro h
      by_cases hx : x.id = stale.id
      · exact ⟨(attemptStamp now x :: xs, settle stale res (attemptStamp now x) :: xs),
          by simp only [attemptAt, if_pos hx]⟩
      · have : stale.id ∈ xs.map (fun v => v.id) := by
          rcases List.mem_map.mp h with ⟨v, hv, hveq⟩
          rcases List.mem_cons.mp hv with rfl | hv2
          · exact absurd hveq hx
          · exact List.mem_map.mpr ⟨v, hv2, hveq⟩
        rcases ih this with ⟨p, hp⟩
        exact ⟨(x :: p.1, x :: p.2), by simp only [attemptAt, if_neg hx, hp, Option.map_some']⟩

theorem attemptAt_map_id (now : String) (res : Except String Unit)
    (stale : QueuedUpload) :
    ∀ (q : List QueuedUpload) (p : List QueuedUpload × List QueuedUpload),
      attemptAt now res stale q = some p →
      p.2.map (fun v => v.id) = q.map (fun v => v.id) := by
  intro q
  induction q with
  | nil => intro p h; simp [attemptAt] at h
  | cons x xs ih =>
      intro p h
      by_cases hx : x.id = stale.id
      · simp only [attemptAt, if_pos hx, Option.some.injEq] at h
        subst h
        simp [settle_id, attemptStamp_id]
      · simp only [attemptAt, if_neg hx, Option.map_eq_some'] at h
        rcases h with ⟨p0, hp0, rfl⟩
        simp [ih p0 hp0]

/-!
## Structural lemmas about `processUploadQ`
-/

theorem processUploadQ_map_id (outcome : String → Except String Unit) (now : String)
    (q : List QueuedUpload) (u : QueuedUpload) :
    (processUploadQ outcome now q u).queue.map (fun v => v.id) =
      q.map (fun v => v.id) := by
  unfold processUploadQ
  cases h : attemptAt now (outcome u.id) u q with
  | none => rfl
  | some p => exact attemptAt_map_id now (outcome u.id) u q p h

theorem processUploadQ_calls_of_mem (outcome : String → Except String Unit) (now : String)
    (q : List QueuedUpload) (u : QueuedUpload)
    (h : u.id ∈ q.map (fun v => v.id)) :
    (processUploadQ outcome now q u).calls = [u.id] := by
  unfold processUploadQ
  rcases attemptAt_isSome now (outcome u.id) u q h with ⟨p, hp⟩
  rw [hp]

theorem drainGo_spec (outcome : String → Except String Unit) (now : String) :
    ∀ (us q : List QueuedUpload),
      (∀ u ∈ us, u.id ∈ q.map (fun v => v.id)) →
      (drainGo outcome now us q).calls = us.map (fun u => u.id) ∧
      (drainGo outcome now us q).queue.map (fun v => v.id) = q.map (fun v => v.id) := by
  intro us
  induction us with
  | nil => intro q _; exact ⟨rfl, rfl⟩
  | cons u rest ih =>
      intro q h
      have hu : u.id ∈ q.map (fun v => v.id) := h u (List.mem_cons_self u rest)
      have hids := processUploadQ_map_id outcome now q u
      have hrest : ∀ v ∈ rest, v.id ∈ (processUploadQ outcome now q u).queue.map
          (fun w => w.id) := by
        intro v hv
        rw [hids]
        exact h v (List.mem_cons_of_mem u hv)
      rcases ih (processUploadQ outcome now q u).queue hrest with ⟨hc, hq⟩
      constructor
      · show (processUploadQ outcome now q u).calls ++ _ = _
        rw [processUploadQ_calls_of_mem outcome now q u hu, hc]
        rfl
      · show (drainGo outcome now rest (processUploadQ outcome now q u).queue).queue.map
            (fun v => v.id) = _
        rw [hq, hids]

/-- C6: a drain pass invokes the Transfer Client exactly once per
selected item, in the original order, for every outcome assignment
(in particular failures of earlier items never suppress later
attempts); and the selected items are exactly those that are `pending`,
or `failed` with `attempts < MAX_RETRIES`. -/
theorem drain_attempts_each_selected_once (outcome : String → Except String Unit)
    (now : String) (q : List QueuedUpload) :
    (processQueueDrain outcome now q).calls = (selectEligible q).map (fun u => u.id) ∧
    (∀ u : QueuedUpload, u ∈ selectEligible q ↔
      u ∈ q ∧ (u.status = .pending ∨ (u.status = .failed ∧ u.attempts < MAX_RETRIES))) := by
  constructor
  · have h : ∀ u ∈ selectEligible q, u.id ∈ q.map (fun v => v.id) := by
      intro u hu
      exact List.mem_map.mpr ⟨u, List.mem_of_mem_filter hu, rfl⟩
    exact (drainGo_spec outcome now (selectEligible q) q h).1
  · intro u
    simp [selectEligible, List.mem_filter]

/-- C9: `processUpload` for an id that is no longer in the persisted
queue is a no-op: the queue is unchanged, no Transfer Client call is
made and no listener broadcast is emitted. -/
theorem processUpload_missing_id_noop (outcome : String → Except String Unit)
    (now : String) (q : List QueuedUpload) (u : QueuedUpload)
    (h : ∀ v ∈ q, v.id ≠ u.id) :
    processUploadQ outcome now q u = { queue := q, calls := [], notified := [] } := by
  unfold processUploadQ
  rw [attemptAt_eq_none now (outcome u.id) u q h]

/-- An item still present in the queue while another one is processed. -/
def presentItem : QueuedUpload :=
  { id := "present_7"
    file := { uri := "file:///p", name := "p.pdf", mime := "application/pdf", size := 11 }
    metadata := { tags := "keep", category := "docs", uploader := "op", chatId := "c1" }
    status := .pending
    attempts := 0
    createdAt := "2024-01-02T00:00:00Z" }

/-- A snapshot of an item that was concurrently removed from the queue. -/
def ghostItem : QueuedUpload :=
  { id := "ghost_8"
    file := { uri := "file:///g", name := "g.pdf", mime := "application/pdf", size := 12 }
    metadata := { tags := "gone", category := "docs", uploader := "op", chatId := "c1" }
    status := .pending
    attempts := 0
    createdAt := "2024-01-02T00:01:00Z" }

theorem processUpload_missing_id_noop_witness :
    (∀ v ∈ [presentItem], v.id ≠ ghostItem.id) ∧
    processUploadQ (fun _ => Except.ok ()) "T1" [presentItem] ghostItem =
      { queue := [presentItem], calls := [], notified := [] } :=
  ⟨by decide, processUpload_missing_id_noop (fun _ => Except.ok ()) "T1"
    [presentItem] ghostItem (by decide)⟩

/-!
## `retryFailedUploads`

The source walks the queue with `forEach` and re-arms an item only when
`upload.status === 'failed' && upload.attempts < this.MAX_RETRIES`,
then saves, notifies, and kicks `processQueue()`.
-/

/-- The `forEach` body of `retryFailedUploads`, element by element. -/
def rearmAll : List QueuedUpload → List QueuedUpload
  | [] => []
  | u :: rest =>
      (if u.status = .failed ∧ u.attempts < MAX_RETRIES
        then { u with status := .pending, error := none } else u) :: rearmAll rest

/-- Observable result of `retryFailedUploads()`. -/
structure RetryResult where
  queue : List QueuedUpload
  notified : List (List QueuedUpload)
  drainTriggered : Bool
deriving DecidableEq, Repr

/-- `retryFailedUploads()`: re-arm, save, notify, trigger a drain. -/
def retryFailedUploads (q : List QueuedUpload) : RetryResult :=
  let q2 := rearmAll q
  { queue := q2, notified := [q2], drainTriggered := true }

theorem rearmAll_eq_map (q : List QueuedUpload) :
    rearmAll q = q.map (fun u =>
      if u.status = .failed ∧ u.attempts < MAX_RETRIES
      then { u with status := UploadStatus.pending, error := none } else u) := by
  induction q with
  | nil => rfl
  | cons u rest ih => simp only [rearmAll, List.map_cons, ih]

/-!
## The retry budget trajectory (claims about `MAX_RETRIES`)

A single always-failing item, drained repeatedly.  `processUpload`
increments the attempts counter of the element in the reloaded queue
but compares `upload.attempts` — the counter of the stale snapshot that
the drain selected — against `MAX_RETRIES`, so the `failed` status is
reached one attempt later than the counter value suggests.
-/

/-- A Transfer Client that fails every attempt. -/
def failOutcome : String → Except String Unit := fun _ => .error "network down"

/-- A Transfer Client that succeeds on every attempt. -/
def okOutcome : String → Except String Unit := fun _ => .ok ()

/-- Item Y of the specification scenario: freshly enqueued, pending,
zero attempts, destined to fail every transfer. -/
def itemY : QueuedUpload :=
  { id := "y1"
    file := { uri := "file:///y", name := "y.bin", mime := "application/octet-stream", size := 3 }
    metadata := { tags := "t", category := "docs", uploader := "op", chatId := "c1" }
    status := .pending
    attempts := 0
    createdAt := "2024-01-03T00:00:00Z" }

/-- The queue after one full drain pass with every transfer failing. -/
def drainStepFail (q : List QueuedUpload) : List QueuedUpload :=
  (processQueueDrain failOutcome "2024-01-03T01:00:00Z" q).queue

/-- The queue holding item Y after `n` such drain passes. -/
def afterDrains : Nat → List QueuedUpload
  | 0 => [itemY]
  | n + 1 => drainStepFail (afterDrains n)

/-- C1: the retry cap is off by one.  After the third failed attempt
item Y is still `pending` with `attempts = 3` (the claim expects
`failed`), the next drain makes a fourth automatic attempt, and only
after that fourth failure is Y `failed`, with `attempts = 4`; from then
on drains leave it alone, and `retryFailedUploads` does not re-arm it
either because its counter already exceeds `MAX_RETRIES`. -/
theorem maxRetries_off_by_one :
    ((afterDrains 3).map (fun u => (u.status, u.attempts)) = [(.pending, 3)]) ∧
    ((processQueueDrain failOutcome "2024-01-03T01:00:00Z" (afterDrains 3)).calls = ["y1"]) ∧
    ((afterDrains 4).map (fun u => (u.status, u.attempts)) = [(.failed, 4)]) ∧
    ((processQueueDrain failOutcome "2024-01-03T01:00:00Z" (afterDrains 4)).calls = []) ∧
    (afterDrains 5 = afterDrains 4) ∧
    ((retryFailedUploads (afterDrains 4)).queue = afterDrains 4) := by
  decide

/-- C2 counterexample: a `failed` item whose counter reached the cap —
the only kind of `failed` item the state machine ever produces — is not
re-armed by `retryFailedUploads`; the claim says every `failed` item
goes back to `pending`. -/
theorem retryFailed_skips_capped_item :
    ((afterDrains 4).map (fun u => u.status) = [.failed]) ∧
    (retryFailedUploads (afterDrains 4)).queue = afterDrains 4 ∧
    ((retryFailedUploads (afterDrains 4)).queue.map (fun u => u.status) = [.failed]) := by
  decide

/-- C2 amended: `retryFailedUploads` re-arms to `pending` (clearing the
error) exactly the `failed` items whose `attempts` are still below
`MAX_RETRIES`, leaves every other item unchanged, broadcasts the new
queue, and triggers a drain. -/
theorem retryFailed_rearms_only_below_cap (q : List QueuedUpload) :
    (retryFailedUploads q).queue = q.map (fun u =>
      if u.status = .failed ∧ u.attempts < MAX_RETRIES
      then { u with status := UploadStatus.pending, error := none } else u) ∧
    (retryFailedUploads q).drainTriggered = true ∧
    (retryFailedUploads q).notified = [(retryFailedUploads q).queue] := by
  exact ⟨rearmAll_eq_map q, rfl, rfl⟩

/-!
## A persisted `uploading` item after a process restart
-/

/-- An item whose persisted status is `uploading` because the process
died between the first save of `processUpload` and the attempt outcome. -/
def stuckItem : QueuedUpload :=
  { id := "s1"
    file := { uri := "file:///s", name := "s.bin", mime := "application/octet-stream", size := 5 }
    metadata := { tags := "t", category := "docs", uploader := "op", chatId := "c1" }
    status := .uploading
    attempts := 1
    lastAttempt := some "2024-01-04T00:00:00Z"
    createdAt := "2024-01-04T00:00:00Z" }

/-- C3: a reloaded `uploading` item is not treated as `pending`: the
drain filter never selects it, so no drain attempts it and it stays
`uploading` forever, whether transfers would succeed or fail. -/
theorem uploading_item_never_resumed :
    selectEligible [stuckItem] = [] ∧
    (processQueueDrain okOutcome "T1" [stuckItem]).calls = [] ∧
    (processQueueDrain okOutcome "T1" [stuckItem]).queue = [stuckItem] ∧
    (processQueue false true okOutcome "T1" [stuckItem]).calls = [] ∧
    (processQueueDrain failOutcome "T1" [stuckItem]).queue = [stuckItem] := by
  decide

/-!
## Interleaving model of concurrent `processQueue()` calls

`processQueue` is `async`; the single-flight guard reads
`this.isProcessing` synchronously but only sets it *after* awaiting
`NetInfo.fetch()`.  Each `await` is a suspension point where the other
invocation may run.  A coroutine is modelled by the suspension point it
sits at:

* `atCheck` — about to run `if (this.isProcessing) return;`
* `atFetch` — passed the check, suspended in `await NetInfo.fetch()`
* `atLoad`  — set `isProcessing = true`, suspended in `await this.getQueue()`
* `atLoop sel` — loaded and filtered; the selected items it still has
  to process (each loop iteration, `processUpload` plus the inter-item
  delay, is taken as one step — a coarser schedule than the real one,
  so every schedule expressible here is a legal JavaScript interleaving)
* `finished` — returned.
-/

inductive DrainPC
  | atCheck
  | atFetch
  | atLoad
  | atLoop (sel : List QueuedUpload)
  | finished
deriving DecidableEq, Repr

/-- Shared state of two concurrent `processQueue()` invocations A and
B: the `isProcessing` flag, the persisted queue, both program counters,
and the running total of Transfer Client calls. -/
structure DrainSys where
  flag : Bool
  store : List QueuedUpload
  pcA : DrainPC
  pcB : DrainPC
  calls : Nat
deriving DecidableEq, Repr

/-- One step of one invocation, following the source line by line. -/
def threadStep (outcome : String → Except String Unit) (now : String) (connected : Bool)
    (pc : DrainPC) (flag : Bool) (store : List QueuedUpload) (calls : Nat) :
    DrainPC × Bool × List QueuedUpload × Nat :=
  match pc with
  | .atCheck => if flag then (.finished, flag, store, calls) else (.atFetch, flag, store, calls)
  | .atFetch =>
      if connected then (.atLoad, true, store, calls) else (.finished, flag, store, calls)
  | .atLoad => (.atLoop (selectEligible store), flag, store, calls)
  | .atLoop [] => (.finished, false, store, calls)
  | .atLoop (u :: rest) =>
      let eff := processUploadQ outcome now store u
      (.atLoop rest, flag, eff.queue, calls + eff.calls.length)
  | .finished => (.finished, flag, store, calls)

/-- Run one scheduler step: `true` advances invocation A, `false`
advances invocation B. -/
def sysStep (outcome : String → Except String Unit) (now : String) (connected : Bool)
    (runA : Bool) (s : DrainSys) : DrainSys :=
  if runA then
    let r := threadStep outcome now connected s.pcA s.flag s.store s.calls
    { flag := r.2.1, store := r.2.2.1, pcA := r.1, pcB := s.pcB, calls := r.2.2.2 }
  else
    let r := threadStep outcome now connected s.pcB s.flag s.store s.calls
    { flag := r.2.1, store := r.2.2.1, pcA := s.pcA, pcB := r.1, calls := r.2.2.2 }

/-- Run a whole schedule. -/
def sysRun (outcome : String → Except String Unit) (now : String) (connected : Bool) :
    List Bool → DrainSys → DrainSys
  | [], s => s
  | t :: ts, s => sysRun outcome now connected ts (sysStep outcome now connected t s)

/-- The single pending item both overlapping drains race on. -/
def raceItem : QueuedUpload :=
  { id := "r1"
    file := { uri := "file:///r", name := "r.bin", mime := "application/octet-stream", size := 7 }
    metadata := { tags := "t", category := "docs", uploader := "op", chatId := "c1" }
    status := .pending
    attempts := 0
    createdAt := "2024-01-05T00:00:00Z" }

/-- Two invocations started while neither has begun processing. -/
def raceInit : DrainSys :=
  { flag := false, store := [raceItem], pcA := .atCheck, pcB := .atCheck, calls := 0 }

/-- Both invocations pass the `isProcessing` check before either sets
the flag (both are suspended in `NetInfo.fetch`), then both load and
select the same pending item. -/
def overlappedSched : List Bool :=
  [true, false, true, false, true, false, true, false, true, false]

/-- Invocation A runs to completion before B takes its first step. -/
def sequentialSched : List Bool :=
  [true, true, true, true, true, false, false, false, false, false]

/-- C4: the single-flight guard is not atomic across the
`NetInfo.fetch` suspension.  Under the overlapped schedule both
invocations drain: the shared pending item is attempted twice
(`calls = 2`, its counter ends at 2), whereas back-to-back invocations
— or a single invocation alone — attempt it exactly once. -/
theorem concurrent_drains_double_process :
    (sysRun okOutcome "T1" true overlappedSched raceInit).calls = 2 ∧
    ((sysRun okOutcome "T1" true overlappedSched raceInit).store.map
      (fun u => u.attempts) = [2]) ∧
    (sysRun okOutcome "T1" true overlappedSched raceInit).pcA = .finished ∧
    (sysRun okOutcome "T1" true overlappedSched raceInit).pcB = .finished ∧
    (sysRun okOutcome "T1" true sequentialSched raceInit).calls = 1 ∧
    (sysRun okOutcome "T1" true [true, true, true, true, true] raceInit).calls = 1 := by
  decide

/-!
## Notification bus and the structural mutations

A listener is a callback receiving the full queue snapshot; it may
throw, which `notifyListeners` catches per listener (`try`/`catch`
inside the `forEach` body) so the loop always continues.
-/

/-- A subscribed callback; an `error` result models a throwing listener. -/
def Listener : Type := List QueuedUpload → Except String Unit

/-- One call of the `forEach` body: invoke the listener, catch and log
its exception.  The returned value records what the catch observed. -/
def runListener (l : Listener) (q : List QueuedUpload) : Option String :=
  match l q with
  | .ok _ => none
  | .error e => some e

/-- `notifyListeners(queue)`: deliver the snapshot to every listener in
list (= subscription) order; a caught exception never stops the loop. -/
def notifyListeners : List Listener → List QueuedUpload → List (Option String)
  | [], _ => []
  | l :: rest, q => runListener l q :: notifyListeners rest q

/-- `subscribe(listener)` pushes the listener at the end of the list. -/
def subscribe (ls : List Listener) (l : Listener) : List Listener := ls ++ [l]

/-- Observable result of a structural queue mutation. -/
structure MutResult where
  queue : List QueuedUpload
  notified : List (List QueuedUpload)

/-- `removeFromQueue(uploadId)`: drop the matching item, save, notify. -/
def removeFromQueue (q : List QueuedUpload) (uploadId : String) : MutResult :=
  let filtered := q.filter (fun u => decide (u.id ≠ uploadId))
  { queue := filtered, notified := [filtered] }

/-- `clearCompleted()`: keep the non-completed items, save, notify. -/
def clearCompleted (q : List QueuedUpload) : MutResult :=
  let active := q.filter (fun u => decide (u.status ≠ .completed))
  { queue := active, notified := [active] }

/-- `clearQueue()`: save the empty queue, notify. -/
def clearQueue (_q : List QueuedUpload) : MutResult :=
  { queue := [], notified := [[]] }

/-- Observable result of `addToQueue`. -/
structure AddResult where
  queue : List QueuedUpload
  retId : String
  notified : List (List QueuedUpload)
  drainTriggered : Bool

/-- `addToQueue(file, tags, category, uploader, chatId)`: build the new
item with a generated id and the current timestamp, append it to the
loaded queue, save, notify, opportunistically trigger a drain when
online, and return the id.  Nothing in it depends on connectivity
except the drain trigger. -/
def addToQueue (file : FileDesc) (tags category uploader chatId : String)
    (genId now : String) (connected : Bool) (q : List QueuedUpload) : AddResult :=
  let upload : QueuedUpload :=
    { id := genId
      file := file
      metadata := { tags := tags, category := category, uploader := uploader, chatId := chatId }
      status := .pending
      attempts := 0
      createdAt := now }
  let queue2 := q ++ [upload]
  { queue := queue2, retId := upload.id, notified := [queue2], drainTriggered := connected }

theorem notifyListeners_length (q : List QueuedUpload) :
    ∀ ls : List Listener, (notifyListeners ls q).length = ls.length := by
  intro ls
  induction ls with
  | nil => rfl
  | cons l rest ih => simp only [notifyListeners, List.length_cons, ih]

theorem notifyListeners_get? (q : List QueuedUpload) :
    ∀ (ls : List Listener) (i : Nat),
      (notifyListeners ls q).get? i = (ls.get? i).map (fun f => runListener f q) := by
  intro ls
  induction ls with
  | nil => intro i; rfl
  | cons l rest ih =>
      intro i
      cases i with
      | zero => rfl
      | succ j => exact ih j

theorem notifyListeners_append (q : List QueuedUpload) :
    ∀ ls ls2 : List Listener,
      notifyListeners (ls ++ ls2) q = notifyListeners ls q ++ notifyListeners ls2 q := by
  intro ls ls2
  induction ls with
  | nil => rfl
  | cons l rest ih =>
      simp only [List.cons_append, notifyListeners]
      exact congrArg (fun x => runListener l q :: x) ih

theorem processUploadQ_notified (outcome : String → Except String Unit) (now : String)
    (q : List QueuedUpload) (u : QueuedUpload) :
    (processUploadQ outcome now q u).notified =
      match attemptAt now (outcome u.id) u q with
      | none => []
      | some p => [p.1, p.2] := by
  unfold processUploadQ
  cases attemptAt now (outcome u.id) u q with
  | none => rfl
  | some p => cases p; rfl

theorem processUploadQ_last_notified (outcome : String → Except String Unit) (now : String)
    (q : List QueuedUpload) (u : QueuedUpload) :
    (processUploadQ outcome now q u).notified = [] ∨
    (processUploadQ outcome now q u).notified.getLast? =
      some (processUploadQ outcome now q u).queue := by
  unfold processUploadQ
  cases attemptAt now (outcome u.id) u q with
  | none => exact Or.inl rfl
  | some p => right; cases p; rfl

/-- C7: every mutation broadcasts the freshly saved snapshot, and the
broadcast reaches every listener in subscription order: delivery to
listener `i` depends only on listener `i` and the snapshot, so a
throwing listener never suppresses delivery to the ones subscribed
after it.  The mutation classes: enqueue, removal, the two bulk
clears, the manual retry, and the per-item status changes of
`processUpload`, whose two save rounds each broadcast exactly the
snapshot just persisted (the stamped `uploading` queue, then the
settled queue) — in particular the last broadcast is always the
finally persisted queue. -/
theorem mutations_broadcast_to_every_listener
    (ls : List Listener) (l : Listener) (q : List QueuedUpload) (i : Nat)
    (file : FileDesc) (tags category uploader chatId genId now uploadId : String)
    (connected : Bool) (outcome : String → Except String Unit) (u : QueuedUpload) :
    (notifyListeners ls q).length = ls.length ∧
    (notifyListeners ls q).get? i = (ls.get? i).map (fun f => runListener f q) ∧
    (notifyListeners (subscribe ls l) q = notifyListeners ls q ++ [runListener l q]) ∧
    ((addToQueue file tags category uploader chatId genId now connected q).notified =
      [(addToQueue file tags category uploader chatId genId now connected q).queue]) ∧
    ((removeFromQueue q uploadId).notified = [(removeFromQueue q uploadId).queue]) ∧
    ((clearCompleted q).notified = [(clearCompleted q).queue]) ∧
    ((clearQueue q).notified = [(clearQueue q).queue]) ∧
    ((retryFailedUploads q).notified = [(retryFailedUploads q).queue]) ∧
    ((processUploadQ outcome now q u).notified =
      match attemptAt now (outcome u.id) u q with
      | none => []
      | some p => [p.1, p.2]) ∧
    ((processUploadQ outcome now q u).notified = [] ∨
      (processUploadQ outcome now q u).notified.getLast? =
        some (processUploadQ outcome now q u).queue) := by
  refine ⟨notifyListeners_length q ls, notifyListeners_get? q ls i, ?_, rfl, rfl, rfl, rfl, rfl,
    processUploadQ_notified outcome now q u, processUploadQ_last_notified outcome now q u⟩
  simp only [subscribe, notifyListeners_append, notifyListeners]

/-- C8: `addToQueue` always succeeds locally and appends exactly one
item: the previously queued items are untouched and stay in front, the
new last item is `pending` with zero attempts and the supplied creation
time, the returned id is the generated id of that item, the new queue
is broadcast, and connectivity plays no role in the resulting queue. -/
theorem enqueue_appends_pending_item
    (file : FileDesc) (tags category uploader chatId genId now : String)
    (connected : Bool) (q : List QueuedUpload) :
    ((addToQueue file tags category uploader chatId genId now connected q).queue.take
      q.length = q) ∧
    ((addToQueue file tags category uploader chatId genId now connected q).queue.length =
      q.length + 1) ∧
    ((addToQueue file tags category uploader chatId genId now connected q).queue.getLast?.map
      (fun u => (u.status, u.attempts, u.createdAt, u.id)) =
        some (.pending, 0, now, genId)) ∧
    ((addToQueue file tags category uploader chatId genId now connected q).retId = genId) ∧
    ((addToQueue file tags category uploader chatId genId now connected q).drainTriggered =
      connected) ∧
    ((addToQueue file tags category uploader chatId genId now true q).queue =
      (addToQueue file tags category uploader chatId genId now false q).queue) := by
  refine ⟨List.take_left q _, by simp [addToQueue], ?_, rfl, rfl, rfl⟩
  simp [addToQueue]

end TeleVault
